import Mathlib

/-!
Verification development for the us-visa-appointment script
(`src/usappointment.js`).

The script's helper functions and workflow are shallowly embedded below:

* the JS `Date` collaborator (ISO `YYYY-MM-DD` parsing, comparison, and
  `toDateString`, rendered at UTC offset 0) is modelled executably;
* `waitForFunction` (the condition poller) is a recursive function over a
  discrete time line, parameterised by the predicate's results and
  per-invocation durations;
* `waitForSelector` / `waitForSelectors` (the element locator) run against an
  abstract DOM environment in which each per-step lookup either succeeds
  within the timeout or fails after consuming exactly the timeout (the
  interface contract of the browser collaborator);
* `scrollIntoViewIfNeeded` (the visibility guarantor) composes the poller in
  two phases around the scroll request;
* the per-field typing logic and the query/decide/notify/close tail of
  `runPuppeteerLogic`, wrapped by `runLogic`'s top-level catch, are modelled
  as trace-producing functions.  The trace records the Notifier's log line,
  push requests, and browser closes; plain progress `console.log` lines are
  not modelled.
-/

namespace USVisa

/-! ## JS Date model (browser/runtime collaborator)

`new Date(s)` for an ISO `YYYY-MM-DD` string yields midnight UTC of that
civil date; out-of-range components yield an invalid date (NaN).  Comparison
of two valid dates agrees with lexicographic comparison of the
(year, month, day) triples.  `toDateString` renders `Www Mmm DD YYYY`;
we model it at UTC offset 0. -/

def isLeapYear (y : Nat) : Bool :=
  (y % 4 == 0 && y % 100 != 0) || y % 400 == 0

def daysInMonth (y m : Nat) : Nat :=
  if m == 2 then (if isLeapYear y then 29 else 28)
  else if m == 4 || m == 6 || m == 9 || m == 11 then 30
  else 31

/-- Numeric value of a decimal digit character (code 48 = digit zero). -/
def digitVal (c : Char) : Nat := c.toNat - 48

/-- Parse a strict ISO `YYYY-MM-DD` string; `none` models an invalid date
(NaN).  Character code 45 is the hyphen. -/
def parseIsoDate (s : String) : Option (Nat × Nat × Nat) :=
  match s.toList with
  | [y1, y2, y3, y4, s1, m1, m2, s2, d1, d2] =>
    if y1.isDigit && y2.isDigit && y3.isDigit && y4.isDigit &&
       s1.toNat == 45 && s2.toNat == 45 &&
       m1.isDigit && m2.isDigit && d1.isDigit && d2.isDigit then
      let y := ((digitVal y1 * 10 + digitVal y2) * 10 + digitVal y3) * 10 + digitVal y4
      let m := digitVal m1 * 10 + digitVal m2
      let d := digitVal d1 * 10 + digitVal d2
      if 1 ≤ m ∧ m ≤ 12 ∧ 1 ≤ d ∧ d ≤ daysInMonth y m then some (y, m, d) else none
    else none
  | _ => none

/-- Chronological order on civil dates = lexicographic on (y, m, d). -/
def dateTripleLt : Nat × Nat × Nat → Nat × Nat × Nat → Bool
  | (y1, m1, d1), (y2, m2, d2) =>
    Nat.blt y1 y2 || (y1 == y2 && (Nat.blt m1 m2 || (m1 == m2 && Nat.blt d1 d2)))

/-- `new Date(a) < new Date(b)` in JS: false whenever either side is NaN. -/
def jsDateLtStr (a b : String) : Bool :=
  match parseIsoDate a, parseIsoDate b with
  | some da, some db => dateTripleLt da db
  | _, _ => false

/-- Zeller's congruence; 0 = Saturday, 1 = Sunday, ..., 6 = Friday. -/
def zellerWeekday (y m d : Nat) : Nat :=
  let yAdj := if m ≤ 2 then y - 1 else y
  let mAdj := if m ≤ 2 then m + 12 else m
  let kC := yAdj % 100
  let jC := yAdj / 100
  (d + (13 * (mAdj + 1)) / 5 + kC + kC / 4 + jC / 4 + 5 * jC) % 7

def weekdayNames : List String := ["Sat", "Sun", "Mon", "Tue", "Wed", "Thu", "Fri"]

def monthNames : List String :=
  ["Jan", "Feb", "Mar", "Apr", "May", "Jun", "Jul", "Aug", "Sep", "Oct", "Nov", "Dec"]

def pad2 (n : Nat) : String := if n < 10 then "0" ++ toString n else toString n

/-- `Date.prototype.toDateString` for a date parsed from ISO, at UTC. -/
def jsToDateString (s : String) : String :=
  match parseIsoDate s with
  | none => "Invalid Date"
  | some (y, m, d) =>
    (weekdayNames.getD (zellerWeekday y m d) ("")) ++ " " ++
      (monthNames.getD (m - 1) ("")) ++ " " ++ pad2 d ++ " " ++ toString y

/-- Substring test helper: is `n` a contiguous run of `h`? -/
def substrAux (n : List Char) : List Char → Bool
  | [] => List.isPrefixOf n []
  | c :: t => List.isPrefixOf n (c :: t) || substrAux n t

/-- Does `hay` contain `needle` as a contiguous substring? -/
def strContainsSub (needle hay : String) : Bool :=
  substrAux needle.toList hay.toList

/-! ## Run outcomes and the query decision (lines 274-289 of the source)

The decision after the slot query: an empty response yields the no-slots
outcome; otherwise `availableDates[0].date` — the FIRST element of the
response, not a computed minimum — is compared to the threshold date. -/

inductive RunOutcome where
  | ScheduledEarlierFound : RunOutcome
  | NoEarlierAvailable : RunOutcome
  | NoSlotsAtAll : RunOutcome
  | Failed : RunOutcome
  | TimedOut : RunOutcome
deriving DecidableEq

/-- The decision taken at `Querying → Decided`: mirrors
`if (availableDates.length <= 0) ... const firstDate = new Date(availableDates[0].date);
if (firstDate < currentDate) ...`. -/
def queryDecision (slots : List String) (threshold : String) : RunOutcome :=
  match slots with
  | [] => RunOutcome.NoSlotsAtAll
  | d :: _ =>
    if jsDateLtStr d threshold then RunOutcome.ScheduledEarlierFound
    else RunOutcome.NoEarlierAvailable

/-- Modelled from the spec: the MINIMUM slot date of the sequence, following
the spec's words "the minimum slot date" / "only the earliest slot in the
response matters".  The source has no corresponding computation (it reads
the first element); this definition exists only to compare the spec's claim
against the code's behaviour. -/
def specMinSlotDate (slots : List String) : Option (Nat × Nat × Nat) :=
  (slots.filterMap parseIsoDate).foldl
    (fun acc d =>
      match acc with
      | none => some d
      | some a => if dateTripleLt d a then some d else some a)
    none

/-- C1 counterexample: for slots `["2022-08-01", "2022-05-01"]` with
threshold `2022-06-22`, the minimum slot date (2022-05-01) is strictly
earlier than the threshold, yet the code compares only the FIRST slot
(2022-08-01) and decides `NoEarlierAvailable`, not `ScheduledEarlierFound`. -/
theorem C1_counterexample :
    specMinSlotDate ["2022-08-01", "2022-05-01"] = some (2022, 5, 1) ∧
    dateTripleLt (2022, 5, 1) (2022, 6, 22) = true ∧
    queryDecision ["2022-08-01", "2022-05-01"] ("2022-06-22") =
      RunOutcome.NoEarlierAvailable := by
  decide

/-- C1 (amended): the outcome is `ScheduledEarlierFound` iff the FIRST slot
date of the sequence is strictly earlier than the threshold date; a
non-empty sequence whose first date is not strictly earlier yields
`NoEarlierAvailable`; the empty sequence yields `NoSlotsAtAll` for every
threshold. -/
theorem C1_first_slot_decides (slots : List String) (threshold : String) :
    (queryDecision slots threshold = RunOutcome.ScheduledEarlierFound ↔
      ∃ d rest, slots = d :: rest ∧ jsDateLtStr d threshold = true) ∧
    (∀ d rest, slots = d :: rest → jsDateLtStr d threshold = false →
      queryDecision slots threshold = RunOutcome.NoEarlierAvailable) ∧
    (slots = [] → queryDecision slots threshold = RunOutcome.NoSlotsAtAll) := by
  refine ⟨?_, ?_, ?_⟩
  · constructor
    · intro h
      cases slots with
      | nil => simp [queryDecision] at h
      | cons d rest =>
        refine ⟨d, rest, rfl, ?_⟩
        cases hb : jsDateLtStr d threshold with
        | true => rfl
        | false => simp [queryDecision, hb] at h
    · rintro ⟨d, rest, hs, hlt⟩
      rw [hs]
      simp [queryDecision, hlt]
  · intro d rest hs hlt
    rw [hs]
    simp [queryDecision, hlt]
  · intro hs
    rw [hs]
    rfl

/-- C1 witness (scenarios B and C of the spec): a later-only slot list gives
`NoEarlierAvailable`, an empty list gives `NoSlotsAtAll`. -/
theorem C1_witness :
    queryDecision ["2022-07-01"] ("2022-06-22") = RunOutcome.NoEarlierAvailable ∧
    queryDecision [] ("2022-06-22") = RunOutcome.NoSlotsAtAll :=
  ⟨(C1_first_slot_decides ["2022-07-01"] ("2022-06-22")).2.1 "2022-07-01" [] rfl (by decide),
   (C1_first_slot_decides [] ("2022-06-22")).2.2 rfl⟩

/-! ## Condition poller: `waitForFunction` (lines 83-96)

The loop is embedded over a discrete time line.  The environment supplies,
for the `k`-th invocation of the predicate, its result (`Except.error e`
models a thrown error, `Except.ok b` the JS truthiness of the returned
value) and its duration `dur k`.  The `isActive` flag set by
`setTimeout(…, timeout)` is observed at the top of each loop iteration: the
loop continues iff the current time is still below `timeout`.  A failed
iteration is followed by the fixed 100 ms sleep before the next
invocation. -/

inductive PollOutcome (ε : Type) where
  | success : Nat → Nat → PollOutcome ε
  | raised : ε → Nat → Nat → PollOutcome ε
  | timedOut : Nat → PollOutcome ε
deriving DecidableEq

/-- One run of the `while (isActive)` loop, starting at invocation index `k`
and time `t`.  `success k tEnd` = the `k`-th invocation returned truthy and
the function returned at time `tEnd`; `raised e k tEnd` = the `k`-th
invocation threw `e`, which propagated at `tEnd`; `timedOut t` = the loop
observed the expired flag at time `t` and threw the Timeout error. -/
def waitForFunctionFrom (pred : Nat → Except ε Bool) (dur : Nat → Nat)
    (timeout k t : Nat) : PollOutcome ε :=
  if _h : t < timeout then
    match pred k with
    | Except.error e => PollOutcome.raised e k (t + dur k)
    | Except.ok true => PollOutcome.success k (t + dur k)
    | Except.ok false => waitForFunctionFrom pred dur timeout (k + 1) (t + dur k + 100)
  else PollOutcome.timedOut t
termination_by timeout - t
decreasing_by omega

def waitForFunction (pred : Nat → Except ε Bool) (dur : Nat → Nat)
    (timeout : Nat) : PollOutcome ε :=
  waitForFunctionFrom pred dur timeout 0 0

/-- A predicate that never throws (its invocations only return values). -/
def purePoll (p : Nat → Bool) : Nat → Except Empty Bool := fun k => Except.ok (p k)

/-- Start time of the `k`-th predicate invocation: each invocation begins
100 ms after the previous one completed. -/
def pollStart (dur : Nat → Nat) : Nat → Nat
  | 0 => 0
  | k + 1 => pollStart dur k + dur k + 100

theorem pollStart_mono (dur : Nat → Nat) {j k : Nat} (h : j ≤ k) :
    pollStart dur j ≤ pollStart dur k := by
  induction h with
  | refl => exact Nat.le_refl _
  | step _ ih => exact Nat.le_trans ih (by simp [pollStart]; omega)

theorem pollStart_lower (dur : Nat → Nat) (k : Nat) : 100 * k ≤ pollStart dur k := by
  induction k with
  | zero => simp [pollStart]
  | succ k ih => simp [pollStart]; omega

theorem wff_base_timedOut (pred : Nat → Except ε Bool) (dur : Nat → Nat)
    (timeout k t : Nat) (h : ¬ t < timeout) :
    waitForFunctionFrom pred dur timeout k t = PollOutcome.timedOut t := by
  rw [waitForFunctionFrom]
  simp [h]

theorem wff_step_true (pred : Nat → Except ε Bool) (dur : Nat → Nat)
    (timeout k t : Nat) (h : t < timeout) (hp : pred k = Except.ok true) :
    waitForFunctionFrom pred dur timeout k t = PollOutcome.success k (t + dur k) := by
  rw [waitForFunctionFrom]
  simp [h, hp]

theorem wff_step_err (pred : Nat → Except ε Bool) (dur : Nat → Nat)
    (timeout k t : Nat) {e : ε} (h : t < timeout) (hp : pred k = Except.error e) :
    waitForFunctionFrom pred dur timeout k t = PollOutcome.raised e k (t + dur k) := by
  rw [waitForFunctionFrom]
  simp [h, hp]

theorem wff_step_false (pred : Nat → Except ε Bool) (dur : Nat → Nat)
    (timeout k t : Nat) (h : t < timeout) (hp : pred k = Except.ok false) :
    waitForFunctionFrom pred dur timeout k t =
      waitForFunctionFrom pred dur timeout (k + 1) (t + dur k + 100) := by
  rw [waitForFunctionFrom]
  simp [h, hp]

/-- Running from the start equals running from invocation `k` at its start
time, provided every earlier invocation returned non-truthy before the
deadline. -/
theorem wff_chain (pred : Nat → Except ε Bool) (dur : Nat → Nat) (timeout : Nat) :
    ∀ k, (∀ j, j < k → pred j = Except.ok false ∧ pollStart dur j < timeout) →
    waitForFunction pred dur timeout =
      waitForFunctionFrom pred dur timeout k (pollStart dur k) := by
  intro k
  induction k with
  | zero => intro _; rfl
  | succ k ih =>
    intro hall
    have hk := hall k (Nat.lt_succ_self k)
    rw [ih (fun j hj => hall j (Nat.lt_succ_of_lt hj))]
    rw [wff_step_false pred dur timeout k _ hk.2 hk.1]
    rfl

theorem exists_pollStart_ge (dur : Nat → Nat) (timeout : Nat) :
    ∃ k, timeout ≤ pollStart dur k :=
  ⟨timeout, by have := pollStart_lower dur timeout; omega⟩

/-- If every invocation that starts before the deadline is non-truthy, the
poller reaches the deadline and throws the Timeout error, at a time no
earlier than the deadline. -/
theorem wff_allFalse_timedOut (pred : Nat → Except ε Bool) (dur : Nat → Nat)
    (timeout : Nat)
    (hall : ∀ k, pollStart dur k < timeout → pred k = Except.ok false) :
    ∃ t, timeout ≤ t ∧
      waitForFunction pred dur timeout = PollOutcome.timedOut t := by
  have hex : ∃ k, timeout ≤ pollStart dur k := exists_pollStart_ge dur timeout
  have hK : timeout ≤ pollStart dur (Nat.find hex) := Nat.find_spec hex
  have hmin : ∀ j, j < Nat.find hex → pollStart dur j < timeout := by
    intro j hj
    have := Nat.find_min hex hj
    omega
  refine ⟨pollStart dur (Nat.find hex), hK, ?_⟩
  rw [wff_chain pred dur timeout (Nat.find hex)
    (fun j hj => ⟨hall j (hmin j hj), hmin j hj⟩)]
  exact wff_base_timedOut pred dur timeout _ _ (by omega)

/-- If invocation `K` is the first truthy one and it starts before the
deadline, the poller returns success exactly when that invocation
completes. -/
theorem wff_first_true (p : Nat → Bool) (dur : Nat → Nat) (timeout K : Nat)
    (hKlt : pollStart dur K < timeout) (hKp : p K = true)
    (hmin : ∀ j, j < K → p j = false) :
    waitForFunction (purePoll p) dur timeout =
      PollOutcome.success K (pollStart dur K + dur K) := by
  rw [wff_chain (purePoll p) dur timeout K (fun j hj =>
    ⟨by simp [purePoll, hmin j hj],
     Nat.lt_of_le_of_lt (pollStart_mono dur (Nat.le_of_lt hj)) hKlt⟩)]
  exact wff_step_true (purePoll p) dur timeout K _ hKlt (by simp [purePoll, hKp])

/-- Inversion: a success of the poller identifies the first truthy
invocation and the return time. -/
theorem wff_success_inv (p : Nat → Bool) (dur : Nat → Nat) (timeout k t : Nat)
    (h : waitForFunction (purePoll p) dur timeout = PollOutcome.success k t) :
    p k = true ∧ (∀ j, j < k → p j = false) ∧
    t = pollStart dur k + dur k ∧ pollStart dur k < timeout := by
  by_cases hex : ∃ m, pollStart dur m < timeout ∧ p m = true
  · have hKspec := Nat.find_spec hex
    have hmin : ∀ j, j < Nat.find hex → p j = false := by
      intro j hj
      have hn := Nat.find_min hex hj
      have hle : pollStart dur j ≤ pollStart dur (Nat.find hex) :=
        pollStart_mono dur (Nat.le_of_lt hj)
      by_contra hb
      exact hn ⟨Nat.lt_of_le_of_lt hle hKspec.1, by revert hb; cases p j <;> simp⟩
    have hrun := wff_first_true p dur timeout (Nat.find hex) hKspec.1 hKspec.2 hmin
    rw [hrun] at h
    injection h with h1 h2
    subst h1
    exact ⟨hKspec.2, hmin, h2.symm, hKspec.1⟩
  · have hall : ∀ m, pollStart dur m < timeout → p m = false := by
      intro m hm
      by_contra hb
      exact hex ⟨m, hm, by revert hb; cases p m <;> simp⟩
    obtain ⟨t', _, heq⟩ := wff_allFalse_timedOut (purePoll p) dur timeout
      (fun m hm => by simp [purePoll, hall m hm])
    rw [heq] at h
    exact absurd h (by simp)

/-- Inversion: a Timeout of the poller is thrown no earlier than the
deadline, and every invocation started before the deadline was
non-truthy. -/
theorem wff_timedOut_inv (p : Nat → Bool) (dur : Nat → Nat) (timeout t : Nat)
    (h : waitForFunction (purePoll p) dur timeout = PollOutcome.timedOut t) :
    timeout ≤ t ∧ ∀ k, pollStart dur k < timeout → p k = false := by
  by_cases hex : ∃ m, pollStart dur m < timeout ∧ p m = true
  · have hKspec := Nat.find_spec hex
    have hmin : ∀ j, j < Nat.find hex → p j = false := by
      intro j hj
      have hn := Nat.find_min hex hj
      have hle : pollStart dur j ≤ pollStart dur (Nat.find hex) :=
        pollStart_mono dur (Nat.le_of_lt hj)
      by_contra hb
      exact hn ⟨Nat.lt_of_le_of_lt hle hKspec.1, by revert hb; cases p j <;> simp⟩
    have hrun := wff_first_true p dur timeout (Nat.find hex) hKspec.1 hKspec.2 hmin
    rw [hrun] at h
    exact absurd h (by simp)
  · have hall : ∀ m, pollStart dur m < timeout → p m = false := by
      intro m hm
      by_contra hb
      exact hex ⟨m, hm, by revert hb; cases p m <;> simp⟩
    obtain ⟨t', ht', heq⟩ := wff_allFalse_timedOut (purePoll p) dur timeout
      (fun m hm => by simp [purePoll, hall m hm])
    rw [heq] at h
    injection h with h1
    subst h1
    exact ⟨ht', hall⟩

/-- C5: the condition poller (i) returns success only at the completion of
the first truthy invocation, which must have started before the deadline;
(ii) throws Timeout only at or after the deadline, and only when every
invocation started before the deadline was non-truthy; (iii) if no
invocation before the deadline is truthy it does fail with Timeout; and
(iv) each invocation starts exactly 100 ms after the previous one
completed — invocations never overlap and are not retried faster than the
fixed interval. -/
theorem C5_condition_poller (p : Nat → Bool) (dur : Nat → Nat) (timeout : Nat) :
    (∀ k t, waitForFunction (purePoll p) dur timeout = PollOutcome.success k t →
      p k = true ∧ (∀ j, j < k → p j = false) ∧
      t = pollStart dur k + dur k ∧ pollStart dur k < timeout) ∧
    (∀ t, waitForFunction (purePoll p) dur timeout = PollOutcome.timedOut t →
      timeout ≤ t ∧ ∀ k, pollStart dur k < timeout → p k = false) ∧
    ((∀ k, pollStart dur k < timeout → p k = false) →
      ∃ t, timeout ≤ t ∧
        waitForFunction (purePoll p) dur timeout = PollOutcome.timedOut t) ∧
    (∀ k, pollStart dur (k + 1) = (pollStart dur k + dur k) + 100) :=
  ⟨fun k t h => wff_success_inv p dur timeout k t h,
   fun t h => wff_timedOut_inv p dur timeout t h,
   fun hall => wff_allFalse_timedOut (purePoll p) dur timeout
     (fun k hk => by simp [purePoll, hall k hk]),
   fun _ => rfl⟩

/-- C5 witness: an always-truthy predicate of duration 7 under timeout 50
succeeds at invocation 0, time 7. -/
theorem C5_witness :
    (fun _ : Nat => true) 0 = true ∧
    (∀ j, j < 0 → (fun _ : Nat => true) j = false) ∧
    (7 : Nat) = pollStart (fun _ => 7) 0 + (fun _ : Nat => 7) 0 ∧
    pollStart (fun _ => 7) 0 < 50 :=
  (C5_condition_poller (fun _ => true) (fun _ => 7) 50).1 0 7
    (wff_step_true (purePoll fun _ => true) (fun _ => 7) 50 0 0 (by omega) rfl)

/-- C10: if every invocation before the `k`-th returned non-truthy and the
`k`-th invocation (starting before the deadline) throws `e`, the poller
propagates exactly `e` at the moment that invocation completes: no retry,
no waiting out the remaining timeout, and no conversion into the Timeout
error. -/
theorem C10_raised_propagates {ε : Type} (pred : Nat → Except ε Bool)
    (dur : Nat → Nat) (timeout k : Nat) (e : ε)
    (hk : pollStart dur k < timeout)
    (hprev : ∀ j, j < k → pred j = Except.ok false)
    (he : pred k = Except.error e) :
    waitForFunction pred dur timeout =
      PollOutcome.raised e k (pollStart dur k + dur k) := by
  rw [wff_chain pred dur timeout k (fun j hj =>
    ⟨hprev j hj, Nat.lt_of_le_of_lt (pollStart_mono dur (Nat.le_of_lt hj)) hk⟩)]
  exact wff_step_err pred dur timeout k _ hk he

/-- C10 witness: a predicate that throws 42 on its first invocation makes
the poller propagate 42 immediately at that invocation's completion. -/
theorem C10_witness :
    waitForFunction (fun _ : Nat => (Except.error 42 : Except Nat Bool))
      (fun _ => 0) 50 =
      PollOutcome.raised 42 0 (pollStart (fun _ => 0) 0 + 0) :=
  C10_raised_propagates (fun _ => Except.error 42) (fun _ => 0) 50 0 42
    (by decide) (fun j hj => absurd hj (by omega)) rfl

/-! ## Element locator: `waitForSelector` / `waitForSelectors` (lines 18-25, 55-81)

The browser collaborator is abstracted as a `DomEnv`: a per-step lookup
(`frame.waitForSelector` / `element.waitForSelector`, rooted at `none` for
the frame or `some h` for an element handle) either resolves to a handle
within the caller's timeout, returning the handle and the elapsed time, or
fails after consuming exactly the timeout.  `shadow` models the
`el.shadowRoot ? el.shadowRoot : el` descent applied after each non-final
step. -/

structure DomEnv where
  resolve : Option Nat → String → Option (Nat × Nat)
  shadow : Nat → Nat
  timeout : Nat

inductive SelErr where
  | emptySelector : SelErr
  | notFound : SelErr
deriving DecidableEq

/-- The left-to-right chain of per-step lookups inside one strategy
(lines 63-76), with shadow descent after each non-final step.  Returns the
result and the elapsed time.  The `[]` arm is unreachable from
`waitForSelector`, which rejects empty strategies first. -/
def chainResolve (env : DomEnv) : Option Nat → List String → (Except SelErr Nat) × Nat
  | _, [] => (Except.error SelErr.emptySelector, 0)
  | root, [part] =>
    match env.resolve root part with
    | none => (Except.error SelErr.notFound, env.timeout)
    | some (h, t) => (Except.ok h, t)
  | root, part :: p2 :: rest =>
    match env.resolve root part with
    | none => (Except.error SelErr.notFound, env.timeout)
    | some (h, t) =>
      let r := chainResolve env (some (env.shadow h)) (p2 :: rest)
      (r.1, t + r.2)

/-- `waitForSelector` (lines 55-81): rejects an empty step list immediately
(line 59-61, consuming no time), otherwise resolves the chain. -/
def waitForSelector (env : DomEnv) (selector : List String) : (Except SelErr Nat) × Nat :=
  match selector with
  | [] => (Except.error SelErr.emptySelector, 0)
  | _ => chainResolve env none selector

/-- The `for`-loop of `waitForSelectors` (lines 19-23): try each strategy in
order, swallowing its error; stop at the first success.  Returns the
result, the total elapsed time, and the list of attempted strategies. -/
def tryStrategies (env : DomEnv) : List (List String) → (Option Nat) × Nat × List (List String)
  | [] => (none, 0, [])
  | s :: rest =>
    match waitForSelector env s with
    | (Except.ok h, t) => (some h, t, [s])
    | (Except.error _, t) =>
      let r := tryStrategies env rest
      (r.1, t + r.2.1, s :: r.2.2)

/-- `waitForSelectors` (lines 18-25): first success wins; if no strategy
succeeds, throw an error carrying the full strategy list (line 24). -/
def waitForSelectors (env : DomEnv) (selectors : List (List String)) :
    (Except (List (List String)) Nat) × Nat :=
  match tryStrategies env selectors with
  | (some h, t, _) => (Except.ok h, t)
  | (none, t, _) => (Except.error selectors, t)

/-- Total time consumed by attempting every strategy of a list. -/
def attemptsTime (env : DomEnv) (l : List (List String)) : Nat :=
  (l.map (fun s => (waitForSelector env s).2)).sum

/-- A failing chain over a non-empty step list consumes at least the
per-step timeout (the step that failed consumed exactly the timeout). -/
theorem chainResolve_fail_time (env : DomEnv) :
    ∀ parts root, parts ≠ [] → ((chainResolve env root parts).1).isOk = false →
    env.timeout ≤ (chainResolve env root parts).2 := by
  intro parts
  induction parts with
  | nil => intro root h _; exact absurd rfl h
  | cons part rest ih =>
    intro root _ hfail
    cases rest with
    | nil =>
      cases hr : env.resolve root part with
      | none => simp [chainResolve, hr]
      | some ht => simp [chainResolve, hr, Except.isOk, Except.toBool] at hfail
    | cons p2 rest2 =>
      cases hr : env.resolve root part with
      | none => simp [chainResolve, hr]
      | some ht =>
        simp only [chainResolve, hr] at hfail ⊢
        have := ih (some (env.shadow ht.1)) (by simp) (by exact hfail)
        omega

/-- A failing `waitForSelector` on a non-empty strategy consumes at least
the timeout. -/
theorem waitForSelector_fail_time (env : DomEnv) (s : List String)
    (hne : s ≠ []) (hfail : ((waitForSelector env s).1).isOk = false) :
    env.timeout ≤ (waitForSelector env s).2 := by
  cases s with
  | nil => exact absurd rfl hne
  | cons part rest =>
    simp only [waitForSelector] at hfail ⊢
    exact chainResolve_fail_time env (part :: rest) none (by simp) hfail

/-- First success wins: with every strategy of `pre` failing and `s`
succeeding with handle `h0`, the loop returns `h0`, its elapsed time is the
attempts over `pre` plus the time of `s`, and the strategies of `post` are
never attempted. -/
theorem tryStrategies_first_success (env : DomEnv) :
    ∀ (pre : List (List String)) (s : List String) (post : List (List String)) (h0 : Nat),
    (∀ s2 ∈ pre, ((waitForSelector env s2).1).isOk = false) →
    (waitForSelector env s).1 = Except.ok h0 →
    tryStrategies env (pre ++ s :: post) =
      (some h0, attemptsTime env pre + (waitForSelector env s).2, pre ++ [s]) := by
  intro pre
  induction pre with
  | nil =>
    intro s post h0 _ hs
    rcases hws : waitForSelector env s with ⟨r1, r2⟩
    rw [hws] at hs
    simp only at hs
    subst hs
    simp [tryStrategies, hws, attemptsTime]
  | cons s2 pre ih =>
    intro s post h0 hpre hs
    have h2 := hpre s2 (by simp)
    rcases hws : waitForSelector env s2 with ⟨r1, r2⟩
    rw [hws] at h2
    cases r1 with
    | ok h => simp [Except.isOk, Except.toBool] at h2
    | error e =>
      have ihs := ih s post h0 (fun x hx => hpre x (by simp [hx])) hs
      rw [List.cons_append]
      simp only [tryStrategies, hws, ihs, attemptsTime, List.map_cons, List.sum_cons,
        Prod.mk.injEq, List.cons_append, true_and, and_true]
      try omega

/-- All strategies failing: the loop attempts the whole list and returns no
handle, consuming the attempts time of the whole list. -/
theorem tryStrategies_all_fail (env : DomEnv) :
    ∀ sels, (∀ s ∈ sels, ((waitForSelector env s).1).isOk = false) →
    tryStrategies env sels = (none, attemptsTime env sels, sels) := by
  intro sels
  induction sels with
  | nil => intro _; simp [tryStrategies, attemptsTime]
  | cons s rest ih =>
    intro hall
    have h2 := hall s (by simp)
    rcases hws : waitForSelector env s with ⟨r1, r2⟩
    rw [hws] at h2
    cases r1 with
    | ok h => simp [Except.isOk, Except.toBool] at h2
    | error e =>
      simp only [tryStrategies, hws, ih (fun x hx => hall x (by simp [hx])),
        attemptsTime, List.map_cons, List.sum_cons]

/-- When every strategy fails and every strategy has at least one step, the
total elapsed time is at least one full timeout per strategy. -/
theorem attemptsTime_lower (env : DomEnv) :
    ∀ sels, (∀ s ∈ sels, ((waitForSelector env s).1).isOk = false) →
    (∀ s ∈ sels, s ≠ []) →
    sels.length * env.timeout ≤ attemptsTime env sels := by
  intro sels
  induction sels with
  | nil => intro _ _; simp [attemptsTime]
  | cons s rest ih =>
    intro hall hne
    have h1 := waitForSelector_fail_time env s (hne s (by simp)) (hall s (by simp))
    have h2 := ih (fun x hx => hall x (by simp [hx])) (fun x hx => hne x (by simp [hx]))
    simp only [attemptsTime, List.map_cons, List.sum_cons, List.length_cons] at h2 ⊢
    have : (rest.length + 1) * env.timeout = rest.length * env.timeout + env.timeout := by ring
    omega

/-- C4 counterexample: for the strategy set `[[]]` (one strategy with zero
steps) and timeout 5000, every strategy fails and the locator throws the
element-not-found error carrying the full list — but after 0 ms, NOT after
the strategy's 5000 ms timeout, because `waitForSelector` rejects an empty
step list immediately (lines 59-61). -/
def envNoResolve : DomEnv := DomEnv.mk (fun _ _ => none) id 5000

theorem C4_counterexample :
    waitForSelectors envNoResolve [[]] = (Except.error [[]], 0) ∧
    0 < envNoResolve.timeout :=
  ⟨rfl, by decide⟩

/-- C4 (amended): if the strategies of `pre` all fail and `s` succeeds, the
locator returns `s`'s handle, attempts exactly `pre ++ [s]` (nothing after
the first success), and takes the failed attempts' time plus `s`'s time; if
every strategy fails, the locator fails with the error carrying the full
strategy list after attempting all of it, and — provided every strategy has
at least one step — only after each strategy's individual timeout has
elapsed (at least one full timeout per strategy; a zero-step strategy
instead fails immediately). -/
theorem C4_locator (env : DomEnv) :
    (∀ (pre : List (List String)) (s : List String) (post : List (List String)) (h0 : Nat),
      (∀ s2 ∈ pre, ((waitForSelector env s2).1).isOk = false) →
      (waitForSelector env s).1 = Except.ok h0 →
      waitForSelectors env (pre ++ s :: post) =
        (Except.ok h0, attemptsTime env pre + (waitForSelector env s).2) ∧
      (tryStrategies env (pre ++ s :: post)).2.2 = pre ++ [s]) ∧
    (∀ sels, (∀ s ∈ sels, ((waitForSelector env s).1).isOk = false) →
      waitForSelectors env sels = (Except.error sels, attemptsTime env sels) ∧
      ((∀ s ∈ sels, s ≠ []) → sels.length * env.timeout ≤ attemptsTime env sels)) := by
  constructor
  · intro pre s post h0 hpre hs
    have h1 := tryStrategies_first_success env pre s post h0 hpre hs
    constructor
    · simp [waitForSelectors, h1]
    · simp [h1]
  · intro sels hall
    have h1 := tryStrategies_all_fail env sels hall
    constructor
    · simp [waitForSelectors, h1]
    · intro hne; exact attemptsTime_lower env sels hall hne

/-- Environment for the C4 witness: step "b" resolves (handle 7, 3 ms),
every other step times out. -/
def envSecondWins : DomEnv :=
  DomEnv.mk (fun _ p => if p == ("b") then some (7, 3) else none) id 5000

/-- C4 witness: with strategies `[["a"], ["b"], ["c"]]` under
`envSecondWins`, the first strategy fails (5000 ms), the second succeeds
with handle 7 (3 ms), and the third is never attempted. -/
theorem C4_witness :
    waitForSelectors envSecondWins [["a"], ["b"], ["c"]] =
      (Except.ok 7, attemptsTime envSecondWins [["a"]] + (waitForSelector envSecondWins ["b"]).2) ∧
    (tryStrategies envSecondWins [["a"], ["b"], ["c"]]).2.2 = [["a"], ["b"]] :=
  (C4_locator envSecondWins).1 [["a"]] ["b"] [["c"]] 7
    (by intro s2 hs2; simp at hs2; subst hs2; rfl) rfl

/-- C9: for the empty set of selector strategies, the locator fails
immediately with the error carrying the (empty) strategy list and never
returns a handle. -/
theorem C9_empty_strategy_set (env : DomEnv) :
    waitForSelectors env [] = (Except.error [], 0) ∧
    ∀ h, (waitForSelectors env []).1 ≠ Except.ok h := by
  constructor
  · rfl
  · intro h
    simp [waitForSelectors, tryStrategies]

/-- C9 witness: under a concrete environment, the empty strategy set fails
with the empty-list error and zero elapsed time. -/
theorem C9_witness :
    waitForSelectors envNoResolve [] = (Except.error [], 0) :=
  (C9_empty_strategy_set envNoResolve).1

/-! ## Visibility guarantor: `scrollIntoViewIfNeeded` (lines 27-53)

Phase 1 (`waitForConnected`) polls the element's attachment via the
condition poller; phase 2 checks `isIntersectingViewport({threshold: 0})`
once, and only when it is false requests `scrollIntoView` and polls
intersection (`waitForInViewport`).  The environment supplies the
JS-truthiness of each poll result and the initial intersection check. -/

structure ScrollOpts where
  block : String
  inlinePos : String
  behavior : String
deriving DecidableEq

/-- The scroll request of lines 33-39: block `center`, inline `center`,
behavior `auto` — note the source requests `auto`, not `smooth`. -/
def scrollIntoViewOpts : ScrollOpts := ScrollOpts.mk "center" "center" "auto"

inductive VisEv where
  | scrollRequest : ScrollOpts → VisEv
deriving DecidableEq

inductive VisResult where
  | ok : VisResult
  | detachedAt : Nat → VisResult
  | notVisibleAt : Nat → VisResult
deriving DecidableEq

/-- `scrollIntoViewIfNeeded(element, timeout)`: result plus the trace of
scroll requests issued. -/
def scrollIntoViewIfNeeded (connected : Nat → Bool) (isInViewport : Bool)
    (viewportPoll : Nat → Bool) (durC durV : Nat → Nat) (timeout : Nat) :
    VisResult × List VisEv :=
  match waitForFunction (purePoll connected) durC timeout with
  | PollOutcome.raised e _ _ => e.elim
  | PollOutcome.timedOut t => (VisResult.detachedAt t, [])
  | PollOutcome.success _ _ =>
    if isInViewport then (VisResult.ok, [])
    else
      match waitForFunction (purePoll viewportPoll) durV timeout with
      | PollOutcome.raised e _ _ => e.elim
      | PollOutcome.timedOut t =>
        (VisResult.notVisibleAt t, [VisEv.scrollRequest scrollIntoViewOpts])
      | PollOutcome.success _ _ => (VisResult.ok, [VisEv.scrollRequest scrollIntoViewOpts])

/-- C6 counterexample: the scroll request issued by the code carries
behavior `auto`, not the smooth scroll the claim states; concretely, for
a connected element out of the viewport the trace holds exactly one scroll
request, whose behavior is `"auto" ≠ "smooth"`. -/
theorem C6_counterexample :
    scrollIntoViewOpts.behavior = "auto" ∧
    scrollIntoViewOpts.behavior ≠ "smooth" ∧
    (scrollIntoViewIfNeeded (fun _ => true) false (fun _ => true)
        (fun _ => 0) (fun _ => 0) 5000).2 =
      [VisEv.scrollRequest scrollIntoViewOpts] := by
  have h1 : waitForFunction (purePoll (fun _ => true)) (fun _ => 0) 5000 =
      PollOutcome.success 0 0 :=
    wff_step_true (purePoll fun _ => true) (fun _ => 0) 5000 0 0 (by omega) rfl
  refine ⟨rfl, by decide, ?_⟩
  simp [scrollIntoViewIfNeeded, h1]

/-- C6 (amended): the visibility guarantor first polls attachment, failing
at or after the deadline when attachment never reports truthy (the
`Detached` case), with no scroll requested; once attached, if the element
already intersects the viewport it returns with no scroll request;
otherwise it issues exactly one centered scroll request with `auto` (not
smooth) behavior and polls intersection, returning success when the poll
succeeds and the `NotVisible` timeout — at or after the deadline —
otherwise. -/
theorem C6_two_phase (connected : Nat → Bool) (isInViewport : Bool)
    (viewportPoll : Nat → Bool) (durC durV : Nat → Nat) (timeout : Nat) :
    (∀ t, waitForFunction (purePoll connected) durC timeout = PollOutcome.timedOut t →
      scrollIntoViewIfNeeded connected isInViewport viewportPoll durC durV timeout =
        (VisResult.detachedAt t, []) ∧ timeout ≤ t) ∧
    (∀ k t, waitForFunction (purePoll connected) durC timeout = PollOutcome.success k t →
      (isInViewport = true →
        scrollIntoViewIfNeeded connected isInViewport viewportPoll durC durV timeout =
          (VisResult.ok, [])) ∧
      (isInViewport = false →
        (scrollIntoViewIfNeeded connected isInViewport viewportPoll durC durV timeout).2 =
          [VisEv.scrollRequest scrollIntoViewOpts] ∧
        (∀ k2 t2, waitForFunction (purePoll viewportPoll) durV timeout =
            PollOutcome.success k2 t2 →
          (scrollIntoViewIfNeeded connected isInViewport viewportPoll durC durV timeout).1 =
            VisResult.ok) ∧
        (∀ t2, waitForFunction (purePoll viewportPoll) durV timeout =
            PollOutcome.timedOut t2 →
          (scrollIntoViewIfNeeded connected isInViewport viewportPoll durC durV timeout).1 =
            VisResult.notVisibleAt t2 ∧ timeout ≤ t2))) := by
  constructor
  · intro t ht
    refine ⟨by simp [scrollIntoViewIfNeeded, ht], (wff_timedOut_inv connected durC timeout t ht).1⟩
  · intro k t hk
    constructor
    · intro hv
      simp [scrollIntoViewIfNeeded, hk, hv]
    · intro hv
      refine ⟨?_, ?_, ?_⟩
      · cases h2 : waitForFunction (purePoll viewportPoll) durV timeout with
        | raised e _ _ => exact e.elim
        | timedOut t2 => simp [scrollIntoViewIfNeeded, hk, hv, h2]
        | success k2 t2 => simp [scrollIntoViewIfNeeded, hk, hv, h2]
      · intro k2 t2 h2
        simp [scrollIntoViewIfNeeded, hk, hv, h2]
      · intro t2 h2
        refine ⟨by simp [scrollIntoViewIfNeeded, hk, hv, h2],
          (wff_timedOut_inv viewportPoll durV timeout t2 h2).1⟩

/-- C6 witness: a connected element already in the viewport returns
immediately with no scroll request. -/
theorem C6_witness :
    scrollIntoViewIfNeeded (fun _ => true) true (fun _ => true)
      (fun _ => 0) (fun _ => 0) 5000 = (VisResult.ok, []) :=
  ((C6_two_phase (fun _ => true) true (fun _ => true) (fun _ => 0) (fun _ => 0) 5000).2 0 0
    (wff_step_true (purePoll fun _ => true) (fun _ => 0) 5000 0 0 (by omega) rfl)).1 rfl

/-! ## Form interaction helper (lines 184-200 and 214-230)

The typing blocks inspect `el.type` and either simulate per-character
keystrokes (`element.type(value)`) or focus, assign the value directly and
dispatch the synthetic `input` and `change` events. -/

/-- The natively typeable input categories of lines 189 and 219. -/
def typeableTypes : List String :=
  ["textarea", "select-one", "text", "url", "tel", "search", "password", "number", "email"]

inductive FormEv where
  | key : Char → FormEv
  | focusEl : FormEv
  | assignValue : String → FormEv
  | dispatchEvent : String → FormEv
deriving DecidableEq

def isDispatch : FormEv → Bool
  | FormEv.dispatchEvent _ => true
  | _ => false

/-- The event trace of one typing block for an element of declared input
category `ty` and text `value`. -/
def fillField (ty value : String) : List FormEv :=
  if typeableTypes.contains ty then value.toList.map FormEv.key
  else [FormEv.focusEl, FormEv.assignValue value,
        FormEv.dispatchEvent ("input"), FormEv.dispatchEvent ("change")]

/-- C7: per-character keystroke simulation happens exactly for the
natively-typeable categories; for every other category the element is
focused, its value assigned directly, and then exactly two synthetic events
are dispatched — `input` first, `change` second — with no keystrokes. -/
theorem C7_form_interaction (ty value : String) :
    (typeableTypes.contains ty = true →
      fillField ty value = value.toList.map FormEv.key) ∧
    (typeableTypes.contains ty = false →
      fillField ty value =
        [FormEv.focusEl, FormEv.assignValue value,
         FormEv.dispatchEvent ("input"), FormEv.dispatchEvent ("change")] ∧
      (fillField ty value).filter isDispatch =
        [FormEv.dispatchEvent ("input"), FormEv.dispatchEvent ("change")]) := by
  constructor
  · intro h
    unfold fillField
    rw [if_pos h]
  · intro h
    have hn : ¬ typeableTypes.contains ty = true := by
      rw [h]
      simp
    unfold fillField
    rw [if_neg hn]
    exact ⟨rfl, rfl⟩

/-- C7 witness: a `text` input is typed per character; a `checkbox` input
gets the direct-assignment trace with exactly the two dispatches. -/
theorem C7_witness :
    fillField ("text") ("ab") = ("ab").toList.map FormEv.key ∧
    (fillField ("checkbox") ("x")).filter isDispatch =
      [FormEv.dispatchEvent ("input"), FormEv.dispatchEvent ("change")] :=
  ⟨(C7_form_interaction ("text") ("ab")).1 (by decide),
   ((C7_form_interaction ("checkbox") ("x")).2 (by decide)).2⟩

/-! ## Session workflow and run supervisor (lines 107-129 and 141-301)

The trace records the Notifier's log line, outbound push requests, and
`browser.close()` calls; the step-by-step progress `console.log` lines are
not modelled.  `RunEnv` describes the outside environment of one run: whether
one of the eight interaction/navigation steps of `runPuppeteerLogic` throws
(element not found, detachment, navigation timeout), whether the slot-query
HTTP request succeeds, the returned slot dates, and whether the Notifier's
outbound push request succeeds. -/

inductive WorkflowEv where
  | logged : String → WorkflowEv
  | pushRequested : String → WorkflowEv
  | browserClosed : WorkflowEv
deriving DecidableEq

inductive RunErr where
  | stepError : Fin 8 → RunErr
  | httpError : RunErr
  | pushError : RunErr
deriving DecidableEq

structure RunEnv where
  failStep : Option (Fin 8)
  httpOk : Bool
  slots : List String
  pushOk : Bool

/-- The Notifier's message (line 286 of the source). -/
def notifyMsg (d : String) : String :=
  "There is an earlier date available for the appointment! " ++ jsToDateString d

/-- `notify(msg, agent)` (lines 107-129): always logs the message; when a
user token is configured it issues one push request with no try/catch, so a
push failure escapes `notify` as an error. -/
def notify (tokenConfigured pushOk : Bool) (msg : String) :
    List WorkflowEv × Option RunErr :=
  if tokenConfigured then
    ([WorkflowEv.logged msg, WorkflowEv.pushRequested msg],
     if pushOk then none else some RunErr.pushError)
  else ([WorkflowEv.logged msg], none)

/-- `runPuppeteerLogic` (lines 155-295): the eight interaction/navigation
steps, then the authenticated slot query, the decision, the conditional
`notify`, and the final `browser.close()`.  A thrown error at any point
aborts the remainder of the block, so `browser.close()` is reached only on
the no-slots path (line 276) and on the normal fall-through (line 294). -/
def runPuppeteerLogic (threshold : String) (tokenConfigured : Bool) (env : RunEnv) :
    List WorkflowEv × Option RunErr :=
  match env.failStep with
  | some n => ([], some (RunErr.stepError n))
  | none =>
    if env.httpOk then
      match env.slots with
      | [] => ([WorkflowEv.browserClosed], none)
      | d :: _ =>
        if jsDateLtStr d threshold then
          let nr := notify tokenConfigured env.pushOk (notifyMsg d)
          match nr.2 with
          | some e => (nr.1, some e)
          | none => (nr.1 ++ [WorkflowEv.browserClosed], none)
        else ([WorkflowEv.browserClosed], none)
    else ([], some RunErr.httpError)

/-- `runLogic` (lines 132-301): wraps the workflow in a try/catch whose
catch only logs the error (`console.error`), performing no cleanup. -/
def runLogic (threshold : String) (tokenConfigured : Bool) (env : RunEnv) :
    List WorkflowEv × RunOutcome :=
  let pr := runPuppeteerLogic threshold tokenConfigured env
  match pr.2 with
  | some _ => (pr.1, RunOutcome.Failed)
  | none => (pr.1, queryDecision env.slots threshold)

def envStepFail : RunEnv := RunEnv.mk (some 2) true [] true

def envOkNoSlots : RunEnv := RunEnv.mk none true [] true

def envEarlierSlot : RunEnv := RunEnv.mk none true ["2022-05-01"] true

def envPushFail : RunEnv := RunEnv.mk none true ["2022-05-01"] false

/-- In the trace produced by `notify` no browser close ever occurs. -/
theorem notify_no_close (tok ok : Bool) (msg : String) :
    (notify tok ok msg).1.count WorkflowEv.browserClosed = 0 := by
  cases tok <;> simp [notify, List.count_cons]

/-- C2 counterexample: when the third interaction step throws (element not
found), the error propagates past every `browser.close()` call and the run
ends with zero closes — refuting "closed exactly once on every failure
path". -/
theorem C2_counterexample :
    (runLogic ("2022-06-22") true envStepFail).1.count WorkflowEv.browserClosed = 0 ∧
    (runLogic ("2022-06-22") true envStepFail).2 = RunOutcome.Failed := by
  decide

/-- C2 (amended): the browser session is closed exactly once on every run
that completes without an error (success, `NoEarlierAvailable` and
`NoSlotsAtAll` paths); on every failure path (element not found,
detachment, navigation timeout, HTTP error, push-delivery error) the thrown
error bypasses `browser.close()` and the session is closed zero times. -/
theorem C2_browser_close (threshold : String) (tok : Bool) (env : RunEnv) :
    ((runPuppeteerLogic threshold tok env).2 = none →
      (runLogic threshold tok env).1.count WorkflowEv.browserClosed = 1) ∧
    (∀ e, (runPuppeteerLogic threshold tok env).2 = some e →
      (runLogic threshold tok env).1.count WorkflowEv.browserClosed = 0) := by
  obtain ⟨fs, http, slots, push⟩ := env
  constructor
  · intro hnone
    cases fs with
    | some n => simp [runPuppeteerLogic] at hnone
    | none =>
      cases http with
      | false => simp [runPuppeteerLogic] at hnone
      | true =>
        cases slots with
        | nil => simp [runLogic, runPuppeteerLogic]
        | cons d rest =>
          by_cases hlt : jsDateLtStr d threshold = true
          · simp [runPuppeteerLogic, hlt] at hnone
            simp [runLogic, runPuppeteerLogic, hlt]
            cases hn : (notify tok push (notifyMsg d)).2 with
            | some e => rw [hn] at hnone; simp at hnone
            | none => simp [hn, List.count_append, notify_no_close]
          · simp only [Bool.not_eq_true] at hlt
            simp [runLogic, runPuppeteerLogic, hlt]
  · intro e hsome
    cases fs with
    | some n => simp [runLogic, runPuppeteerLogic]
    | none =>
      cases http with
      | false => simp [runLogic, runPuppeteerLogic]
      | true =>
        cases slots with
        | nil => simp [runPuppeteerLogic] at hsome
        | cons d rest =>
          by_cases hlt : jsDateLtStr d threshold = true
          · simp [runPuppeteerLogic, hlt] at hsome
            simp [runLogic, runPuppeteerLogic, hlt]
            cases hn : (notify tok push (notifyMsg d)).2 with
            | some e2 => simp [hn, notify_no_close]
            | none => rw [hn] at hsome; simp at hsome
          · simp only [Bool.not_eq_true] at hlt
            simp [runPuppeteerLogic, hlt] at hsome

/-- C2 witness: a clean no-slots run closes the browser once; a run whose
third step throws closes it zero times. -/
theorem C2_witness :
    (runLogic ("2022-06-22") true envOkNoSlots).1.count WorkflowEv.browserClosed = 1 ∧
    (runLogic ("2022-06-22") true envStepFail).1.count WorkflowEv.browserClosed = 0 :=
  ⟨(C2_browser_close ("2022-06-22") true envOkNoSlots).1 (by decide),
   (C2_browser_close ("2022-06-22") true envStepFail).2 (RunErr.stepError 2) (by decide)⟩

/-- C3 counterexample: with an earlier slot available and a configured
token, a failing push request makes the run end `Failed`, while the same
run with a successful push ends `ScheduledEarlierFound` — the delivery
failure is NOT swallowed inside the Notifier and changes the Run Outcome. -/
theorem C3_counterexample :
    (runLogic ("2022-06-22") true envPushFail).2 = RunOutcome.Failed ∧
    (runLogic ("2022-06-22") true envEarlierSlot).2 = RunOutcome.ScheduledEarlierFound ∧
    RunOutcome.Failed ≠ RunOutcome.ScheduledEarlierFound := by
  decide

/-- C3 (amended): when the Notifier's outbound push request fails, the error
propagates out of `notify` into the Workflow (there is no local catch),
aborts the run before `browser.close()`, and the Run Outcome becomes
`Failed` instead of the `ScheduledEarlierFound` outcome of a successful
delivery. -/
theorem C3_push_failure_propagates (threshold d : String) (rest : List String)
    (hlt : jsDateLtStr d threshold = true) :
    (runPuppeteerLogic threshold true (RunEnv.mk none true (d :: rest) false)).2 =
      some RunErr.pushError ∧
    (runLogic threshold true (RunEnv.mk none true (d :: rest) false)).2 =
      RunOutcome.Failed ∧
    (runLogic threshold true (RunEnv.mk none true (d :: rest) true)).2 =
      RunOutcome.ScheduledEarlierFound := by
  refine ⟨?_, ?_, ?_⟩ <;>
    simp [runLogic, runPuppeteerLogic, notify, hlt, queryDecision]

/-- C3 witness: the amended behaviour at the concrete scenario-A input. -/
theorem C3_witness :
    (runPuppeteerLogic ("2022-06-22") true (RunEnv.mk none true ["2022-05-01"] false)).2 =
      some RunErr.pushError ∧
    (runLogic ("2022-06-22") true (RunEnv.mk none true ["2022-05-01"] true)).2 =
      RunOutcome.ScheduledEarlierFound :=
  ⟨(C3_push_failure_propagates ("2022-06-22") "2022-05-01" [] (by decide)).1,
   (C3_push_failure_propagates ("2022-06-22") "2022-05-01" [] (by decide)).2.2⟩

/-- C8 counterexample: in scenario A the Notifier's message is the
`toDateString` rendering "Sun May 01 2022", so it does NOT contain the ISO
substring "2022-05-01" claimed by the spec. -/
theorem C8_counterexample :
    (runLogic ("2022-06-22") true envEarlierSlot).1 =
      [WorkflowEv.logged ("There is an earlier date available for the appointment! Sun May 01 2022"),
       WorkflowEv.pushRequested ("There is an earlier date available for the appointment! Sun May 01 2022"),
       WorkflowEv.browserClosed] ∧
    strContainsSub ("2022-05-01")
      ("There is an earlier date available for the appointment! Sun May 01 2022") = false := by
  decide

/-- C8 (amended): for slots `["2022-05-01"]` with threshold `2022-06-22`,
the run reaches `ScheduledEarlierFound` and the Notifier is invoked (log
line plus push request) with a message containing the `toDateString`
rendering "Sun May 01 2022" of the slot date (at UTC), not its ISO form. -/
theorem C8_scenarioA :
    (runLogic ("2022-06-22") true envEarlierSlot).2 = RunOutcome.ScheduledEarlierFound ∧
    WorkflowEv.pushRequested (notifyMsg ("2022-05-01")) ∈
      (runLogic ("2022-06-22") true envEarlierSlot).1 ∧
    notifyMsg ("2022-05-01") =
      "There is an earlier date available for the appointment! Sun May 01 2022" ∧
    strContainsSub ("Sun May 01 2022") (notifyMsg ("2022-05-01")) = true := by
  decide

end USVisa
